import Mathlib

/-!
Shallow embedding of the node-drain terminator of this repository.

The repository carries two variants of the same `terminator` package:
* `src/vendor/sigs.k8s.io/karpenter/pkg/controllers/node/termination/terminator/terminator.go`
  (embedded below in namespace `Vendor`), and
* `src/unnamed/part_000` (embedded below in namespace `Part0`).

Go maps are modelled as association lists with first-match lookup; a map
store prepends its entry, which gives exactly the overwrite semantics of a
Go map under first-match lookup.  Remote reads (`client.Get`) are modelled
by lookups in a fixed `Cluster` value; remote writes (`Update`, `Delete`)
are modelled by an injected failure predicate plus an output trace of the
calls that were issued.  Go runtime panics (nil-pointer dereference,
assignment to an entry in a nil map) are modelled by an explicit
`Res.panicked` outcome.  Times are modelled in whole seconds as `Int`.
-/

namespace KarpenterTerminator

/-- `metav1.OwnerReference`: the fields the terminator reads.  `controller`
is a `*bool` in Go, hence `Option Bool`. -/
structure OwnerReference where
  kind : String
  name : String
  controller : Option Bool
deriving DecidableEq, Repr

/-- `corev1.Pod`: the fields the terminator reads.  The status predicates
`isWaitingEviction`, `isEvictable` and the flag `isOwnedByDaemonSet` are
Modelled from the spec: the vendored `podutil` helpers
(`IsWaitingEviction`, `IsEvictable`, `IsOwnedByDaemonSet`) are not under
`src/`, and the spec's data model gives the pod a "running/terminating/
terminal phase" and a "daemon-owned flag (derived from ownership chain)",
so they are carried as opaque per-pod booleans. -/
structure Pod where
  ns : String
  name : String
  ownerReferences : List OwnerReference
  priorityClassName : String
  terminationGracePeriodSeconds : Option Int
  isOwnedByDaemonSet : Bool
  isWaitingEviction : Bool
  isEvictable : Bool
deriving DecidableEq, Repr

/-- `appsv1.ReplicaSet`: identity plus owner references. -/
structure ReplicaSet where
  ns : String
  name : String
  ownerReferences : List OwnerReference
deriving DecidableEq, Repr

/-- `appsv1.Deployment`: identity, `*Spec.Replicas` (defaulted by the API
server, hence a plain integer) and the pod-template annotation map. -/
structure Deployment where
  ns : String
  name : String
  replicas : Int
  templateAnn : List (String × String)
deriving DecidableEq, Repr

/-- `corev1.Taint`: key, value, effect (effect as a string). -/
structure KTaint where
  key : String
  value : String
  effect : String
deriving DecidableEq, Repr

/-- `corev1.Node`: name, taint slice, label map. -/
structure Node where
  name : String
  taints : List KTaint
  labels : List (String × String)
deriving DecidableEq, Repr

/-- The remote cluster state visible to `client.Get`. -/
structure Cluster where
  replicaSets : List ReplicaSet
  deployments : List Deployment
deriving Repr

/-- Outcome of a fallible piece of Go code: normal return, a returned
`error`, or a runtime panic. -/
inductive Res (α : Type) where
  | ok : α → Res α
  | err : String → Res α
  | panicked : String → Res α
deriving DecidableEq, Repr

/-- First-match association-list lookup: the read of a Go map. -/
def lookupStr {α : Type} : List (String × α) → String → Option α
  | [], _ => none
  | (k, v) :: rest, key => if k = key then some v else lookupStr rest key

/-- `client.Get` on a ReplicaSet by namespace and name. -/
def getRS (c : Cluster) (ns name : String) : Option ReplicaSet :=
  c.replicaSets.find? (fun r => r.ns = ns ∧ r.name = name)

/-- `client.Get` on a Deployment by namespace and name. -/
def getDep (c : Cluster) (ns name : String) : Option Deployment :=
  c.deployments.find? (fun d => d.ns = ns ∧ d.name = name)

/-- The pod-template annotation key the terminator reads
(`kubectl.kubernetes.io/restartedNode`). -/
def restartedNodeKey : String := "kubectl.kubernetes.io/restartedNode"

/-- The pod-template annotation key `src/unnamed/part_000` writes
(`kubectl.kubernetes.io/restartedAt`). -/
def restartedAtKey : String := "kubectl.kubernetes.io/restartedAt"

/-- `corev1.LabelNodeExcludeBalancers`. -/
def excludeBalancersKey : String := "node.kubernetes.io/exclude-from-external-load-balancers"

/-- `corev1.Taint.MatchTaint`: same key and same effect; the value is
ignored. -/
def matchTaint (t desired : KTaint) : Bool :=
  t.key = desired.key ∧ t.effect = desired.effect

/-- Critical priority classes tested by `Evict`. -/
def isCritical (p : Pod) : Bool :=
  p.priorityClassName = "system-cluster-critical" ∨ p.priorityClassName = "system-node-critical"

namespace Part0

/-! Embedding of `src/unnamed/part_000`. -/

/-- The owner-reference scan of `GetDeploymentFromPod` (lines 98-103 and
114-119): `if *ownerRef.Controller && ownerRef.Kind == kind`.  The
dereference `*ownerRef.Controller` is evaluated first for every reference,
so a reference with a nil `Controller` panics. -/
def findCtrlName (kind : String) : List OwnerReference → Res (Option String)
  | [] => .ok none
  | r :: rest =>
    match r.controller with
    | none => .panicked "invalid memory address or nil pointer dereference"
    | some c => if c ∧ r.kind = kind then .ok (some r.name) else findCtrlName kind rest

/-- `GetDeploymentFromPod` (part_000 lines 96-129): pod → ReplicaSet name →
ReplicaSet → Deployment name → Deployment.  An empty resolved name is the
"no deployment" result `(nil, nil)`; a failed `Get` is an error. -/
def GetDeploymentFromPod (c : Cluster) (pod : Pod) : Res (Option Deployment) :=
  match findCtrlName "ReplicaSet" pod.ownerReferences with
  | .panicked m => .panicked m
  | .err e => .err e
  | .ok rsName? =>
    match rsName?.getD "" with
    | "" => .ok none
    | rsName =>
      match getRS c pod.ns rsName with
      | none => .err "get rs"
      | some rs =>
        match findCtrlName "Deployment" rs.ownerReferences with
        | .panicked m => .panicked m
        | .err e => .err e
        | .ok dpName? =>
          match dpName?.getD "" with
          | "" => .ok none
          | dpName =>
            match getDep c pod.ns dpName with
            | none => .err "get deployment"
            | some d => .ok (some d)

/-- Outcome of a loop that issues remote writes. -/
inductive WOut where
  | ok
  | err : String → WOut
deriving DecidableEq, Repr

/-- Loop of `RestartDeployments` (part_000 lines 132-151).  `failU` injects
`Update` failures, keyed by `namespace/name`.  Returns the (mutated)
deployments processed so far, the keys `Update` was called on, and the
outcome; the function returns the first `Update` error immediately, leaving
the rest of the list unprocessed. -/
def restartGo (failU : String → Bool) (nodeName : String) :
    List Deployment → List Deployment → List String → List Deployment × List String × WOut
  | [], acc, ups => (acc, ups, .ok)
  | d :: rest, acc, ups =>
    let skip : Bool :=
      match lookupStr d.templateAnn restartedNodeKey with
      | some v => v = nodeName
      | none => false
    if skip then
      restartGo failU nodeName rest (acc ++ [d]) ups
    else
      -- line 146: the STAMP is written under `restartedAtKey`, while the
      -- skip check above reads `restartedNodeKey`.
      let d' : Deployment :=
        { d with templateAnn := (restartedAtKey, nodeName) :: d.templateAnn }
      if failU (d.ns ++ "/" ++ d.name) then
        (acc ++ [d'], ups ++ [d.ns ++ "/" ++ d.name], .err "update")
      else
        restartGo failU nodeName rest (acc ++ [d']) (ups ++ [d.ns ++ "/" ++ d.name])

/-- `RestartDeployments` (part_000 lines 131-153). -/
def RestartDeployments (failU : String → Bool) (nodeName : String) (deployments : List Deployment) :
    List Deployment × List String × WOut :=
  restartGo failU nodeName deployments [] []

/-- The four eviction tiers built by the classification loop of `Evict`
(part_000 lines 267-282). -/
structure Tiers where
  criticalNonDaemon : List Pod
  criticalDaemon : List Pod
  nonCriticalNonDaemon : List Pod
  nonCriticalDaemon : List Pod
deriving DecidableEq, Repr

/-- The classification loop of `Evict`: one pass over the pods, appending
each pod to exactly one tier. -/
def tiers : List Pod → Tiers
  | [] => ⟨[], [], [], []⟩
  | p :: rest =>
    let t := tiers rest
    if isCritical p then
      if p.isOwnedByDaemonSet then
        { t with criticalDaemon := p :: t.criticalDaemon }
      else
        { t with criticalNonDaemon := p :: t.criticalNonDaemon }
    else
      if p.isOwnedByDaemonSet then
        { t with nonCriticalDaemon := p :: t.nonCriticalDaemon }
      else
        { t with nonCriticalNonDaemon := p :: t.nonCriticalNonDaemon }

/-- `EvictInOrder` (part_000 lines 294-302): submit the first non-empty
list to the eviction queue and return; the result is the submitted list. -/
def EvictInOrder : List (List Pod) → List Pod
  | [] => []
  | l :: rest => if l.length > 0 then l else EvictInOrder rest

/-- `Evict` (part_000 lines 265-292): classify, then submit the first
non-empty tier in the order nonCriticalNonDaemon, nonCriticalDaemon,
criticalNonDaemon, criticalDaemon. -/
def Evict (pods : List Pod) : List Pod :=
  let t := tiers pods
  EvictInOrder [t.nonCriticalNonDaemon, t.nonCriticalDaemon, t.criticalNonDaemon, t.criticalDaemon]

/-- `podDeleteTimeWithGracePeriod` (part_000 lines 347-356): deadline minus
the pod's configured grace period, `none` when either is missing. -/
def podDeleteTimeWithGracePeriod (nodeGracePeriodExpirationTime : Option Int) (pod : Pod) :
    Option Int :=
  match nodeGracePeriodExpirationTime, pod.terminationGracePeriodSeconds with
  | some dl, some g => some (dl - g)
  | _, _ => none

/-- Loop of `DeleteExpiringPods` (part_000 lines 304-344).  `failD` injects
non-NotFound `Delete` failures by pod name.  Returns the delete calls
issued as (pod name, grace-period seconds) pairs, and whether the loop
completed; a delete failure aborts the remaining pods. -/
def deleteGo (failD : String → Bool) (now : Int) (deadline : Option Int) :
    List Pod → List (String × Int) → List (String × Int) × Bool
  | [], acc => (acc, true)
  | p :: rest, acc =>
    match deadline, podDeleteTimeWithGracePeriod deadline p with
    | some dl, some dt =>
      if dt < now then
        -- line 321: gracePeriodSeconds = time.Until(deadline) in seconds,
        -- with no clamp at zero.
        let gp := dl - now
        if failD p.name then (acc ++ [(p.name, gp)], false)
        else deleteGo failD now deadline rest (acc ++ [(p.name, gp)])
      else deleteGo failD now deadline rest acc
    | _, _ => deleteGo failD now deadline rest acc

/-- `DeleteExpiringPods` (part_000 lines 304-344). -/
def DeleteExpiringPods (failD : String → Bool) (now : Int) (pods : List Pod)
    (deadline : Option Int) : List (String × Int) × Bool :=
  deleteGo failD now deadline pods []

/-- `Taint` (part_000 lines 58-92), as the node state after a successful
patch: if some existing taint matches key+effect, the taints are left
alone; otherwise every taint sharing the key is rejected and the desired
taint appended; the load-balancer-exclusion label is always merged in. -/
def Taint (node : Node) (taint : KTaint) : Node :=
  let taints :=
    if node.taints.any (fun t => matchTaint t taint) then node.taints
    else node.taints.filter (fun t => ¬ t.key = taint.key) ++ [taint]
  { name := node.name
    taints := taints
    labels := (excludeBalancersKey, "karpenter") :: node.labels }

end Part0

namespace Vendor

/-! Embedding of
`src/vendor/sigs.k8s.io/karpenter/pkg/controllers/node/termination/terminator/terminator.go`. -/

/-- Cache and tally keys: `namespace + "/" + name` of a pod. -/
def podKey (p : Pod) : String := p.ns ++ "/" ++ p.name

/-- Deployment key: `namespace + "/" + name`. -/
def dKey (d : Deployment) : String := d.ns ++ "/" ++ d.name

/-- The owner-reference scan of `getOwnerReplicaSet` / `getOwnerDeployment`
(vendor lines 174-182, 188-196): `ownerRef.Controller != nil &&
ownerRef.Kind == kind`, returning at the first match. -/
def findCtrlRef (kind : String) : List OwnerReference → Option OwnerReference
  | [] => none
  | r :: rest => if r.controller.isSome ∧ r.kind = kind then some r else findCtrlRef kind rest

/-- `getOwnerReplicaSet` (vendor lines 173-185). -/
def getOwnerReplicaSet (c : Cluster) (pod : Pod) : Res (Option ReplicaSet) :=
  match findCtrlRef "ReplicaSet" pod.ownerReferences with
  | none => .ok none
  | some r =>
    match getRS c pod.ns r.name with
    | none => .err "get ReplicaSet"
    | some rs => .ok (some rs)

/-- `getOwnerDeployment` (vendor lines 187-199). -/
def getOwnerDeployment (c : Cluster) (rs : ReplicaSet) : Res (Option Deployment) :=
  match findCtrlRef "Deployment" rs.ownerReferences with
  | none => .ok none
  | some r =>
    match getDep c rs.ns r.name with
    | none => .err "get Deployment"
    | some d => .ok (some d)

/-- `GetDeploymentFromPod` (vendor lines 156-171). -/
def GetDeploymentFromPod (c : Cluster) (pod : Pod) : Res (Option Deployment) :=
  match getOwnerReplicaSet c pod with
  | .panicked m => .panicked m
  | .err e => .err ("failed to get ReplicaSet from Pod: " ++ e)
  | .ok none => .ok none
  | .ok (some rs) =>
    match getOwnerDeployment c rs with
    | .panicked m => .panicked m
    | .err e => .err ("failed to get Deployment from ReplicaSet: " ++ e)
    | .ok d? => .ok d?

/-- `Terminator.nodeRestartDeployments : map[string]map[string]struct{}`.
The outer map is created by `NewTerminator`; no code ever creates an inner
map, so `lookupStr rec nodeName = none` corresponds to a nil inner map. -/
abbrev Record := List (String × List String)

/-- Membership test `t.nodeRestartDeployments[nodeName][key]` (vendor line
262): reading from a nil inner map yields "absent". -/
def recHas (rec : Record) (nodeName k : String) : Bool :=
  match lookupStr rec nodeName with
  | none => false
  | some inner => inner.contains k

/-- The store `t.nodeRestartDeployments[nodeName][key] = struct{}{}`
(vendor line 214): storing into a nil inner map is a Go runtime panic,
modelled as `none`. -/
def recInsert (rec : Record) (nodeName k : String) : Option Record :=
  match lookupStr rec nodeName with
  | none => none
  | some inner => some ((nodeName, k :: inner) :: rec)

/-- `delete(t.nodeRestartDeployments, node.Name)` (vendor line 118). -/
def recErase (rec : Record) (nodeName : String) : Record :=
  rec.filter (fun e => ¬ e.1 = nodeName)

/-- The per-`Drain` deployment cache, keyed by pod key. -/
abbrev Cache := List (String × Option Deployment)

/-- Pass-2 read `deploymentCache[pod.Namespace+"/"+pod.Name]` (vendor line
249): a missing key yields the zero value nil. -/
def cGet (cache : Cache) (k : String) : Option (Option Deployment) := lookupStr cache k

/-- `getDeploymentFromCache` (vendor lines 274-287). -/
def getDeploymentFromCache (c : Cluster) (pod : Pod) (cache : Cache) :
    Res (Option Deployment × Cache) :=
  match cGet cache (podKey pod) with
  | some d? => .ok (d?, cache)
  | none =>
    match GetDeploymentFromPod c pod with
    | .err e => .err e
    | .panicked m => .panicked m
    | .ok d? => .ok (d?, (podKey pod, d?) :: cache)

/-- Tally read: a Go `map[string]int32` defaults to 0. -/
def tGet (t : List (String × Int)) (k : String) : Int := (lookupStr t k).getD 0

/-- Tally increment `nodeDeploymentReplicas[key]++` (vendor line 244). -/
def bump (t : List (String × Int)) (k : String) : List (String × Int) :=
  (k, tGet t k + 1) :: t

/-- Pass 1 of `GetRestartdeploymentsAndDrainPods` (vendor lines 238-246):
resolve every pod through the cache and tally pods per deployment key. -/
def pass1 (c : Cluster) : List Pod → Cache → List (String × Int) →
    Res (Cache × List (String × Int))
  | [], cache, tally => .ok (cache, tally)
  | p :: rest, cache, tally =>
    match getDeploymentFromCache c p cache with
    | .err e => .err e
    | .panicked m => .panicked m
    | .ok (d?, cache') =>
      match d? with
      | some d => pass1 c rest cache' (bump tally (dKey d))
      | none => pass1 c rest cache' tally

/-- Pass 2 of `GetRestartdeploymentsAndDrainPods` (vendor lines 248-269).
Line 251 computes `deployment.Namespace + "/" + deployment.Name` BEFORE the
`deployment != nil` check of line 252, so a pod with no resolved deployment
dereferences nil and panics. -/
def pass2 (rec : Record) (nodeName : String) (cache : Cache) (tally : List (String × Int)) :
    List Pod → List String → List Deployment → List Pod → Res (List Deployment × List Pod)
  | [], _, rs, dr => .ok (rs, dr)
  | p :: rest, uniq, rs, dr =>
    match (cGet cache (podKey p)).getD none with
    | none => .panicked "invalid memory address or nil pointer dereference"
    | some d =>
      let k := dKey d
      if tGet tally k = d.replicas then
        if uniq.contains k then pass2 rec nodeName cache tally rest uniq rs dr
        else pass2 rec nodeName cache tally rest (k :: uniq) (rs ++ [d]) dr
      else if recHas rec nodeName k then
        pass2 rec nodeName cache tally rest uniq rs dr
      else pass2 rec nodeName cache tally rest uniq rs (dr ++ [p])

/-- `GetRestartdeploymentsAndDrainPods` (vendor lines 231-272). -/
def GetRestartdeploymentsAndDrainPods (c : Cluster) (rec : Record) (pods : List Pod)
    (nodeName : String) : Res (List Deployment × List Pod) :=
  match pass1 c pods [] [] with
  | .err e => .err e
  | .panicked m => .panicked m
  | .ok (cache, tally) => pass2 rec nodeName cache tally pods [] [] []

/-- Outcome of `RestartDeployments`. -/
inductive ROut where
  | ok
  | err : String → ROut
  | panicked : String → ROut
deriving DecidableEq, Repr

/-- Result of `RestartDeployments`: the record, the keys `Update` was
called on (in order), the keys whose `Update` failed, and the outcome. -/
structure RDRes where
  record : Record
  updates : List String
  failedKeys : List String
  out : ROut
deriving DecidableEq, Repr

/-- Loop of the vendor `RestartDeployments` (vendor lines 204-222): skip a
deployment already stamped for this node; otherwise FIRST store into the
record (line 214, a panic on the nil inner map), then stamp the annotation
and call `Update`, collecting failures and continuing. -/
def restartGo (failU : String → Bool) (nodeName : String) :
    List Deployment → Record → List String → List String → RDRes
  | [], rec, ups, fails =>
    ⟨rec, ups, fails, if fails.isEmpty then .ok else .err "failed to restart some deployment"⟩
  | d :: rest, rec, ups, fails =>
    let skip : Bool :=
      match lookupStr d.templateAnn restartedNodeKey with
      | some v => v = nodeName
      | none => false
    if skip then restartGo failU nodeName rest rec ups fails
    else
      match recInsert rec nodeName (dKey d) with
      | none => ⟨rec, ups, fails, .panicked "assignment to entry in nil map"⟩
      | some rec' =>
        if failU (dKey d) then
          restartGo failU nodeName rest rec' (ups ++ [dKey d]) (fails ++ [dKey d])
        else restartGo failU nodeName rest rec' (ups ++ [dKey d]) fails

/-- `RestartDeployments` (vendor lines 201-229). -/
def RestartDeployments (failU : String → Bool) (rec : Record) (nodeName : String)
    (deployments : List Deployment) : RDRes :=
  restartGo failU nodeName deployments rec [] []

/-- `Evict` (vendor lines 122-154): the classification loop is textually
identical to the one of part_000, then an if/else chain submits the first
non-empty tier. -/
def Evict (pods : List Pod) : List Pod :=
  let t := Part0.tiers pods
  if t.nonCriticalNonDaemon.length ≠ 0 then t.nonCriticalNonDaemon
  else if t.nonCriticalDaemon.length ≠ 0 then t.nonCriticalDaemon
  else if t.criticalNonDaemon.length ≠ 0 then t.criticalNonDaemon
  else if t.criticalDaemon.length ≠ 0 then t.criticalDaemon
  else []

/-- Outcome of `Drain`. -/
inductive DOut where
  | ok
  | nodeDrainError
  | err : String → DOut
  | panicked : String → DOut
deriving DecidableEq, Repr

/-- Result of `Drain`: outcome, the record afterwards, and the pods
submitted to the eviction queue. -/
structure DrainRes where
  out : DOut
  record : Record
  evicted : List Pod
deriving DecidableEq, Repr

/-- `Drain` (vendor lines 85-120).  `nodeutil.GetPods` is modelled as the
supplied pod list. -/
def Drain (c : Cluster) (failU : String → Bool) (rec : Record) (node : Node)
    (pods : List Pod) : DrainRes :=
  match GetRestartdeploymentsAndDrainPods c rec pods node.name with
  | .err e => ⟨.err ("get deployment and drain pod from node " ++ e), rec, []⟩
  | .panicked m => ⟨.panicked m, rec, []⟩
  | .ok (restarts, drains) =>
    let r := RestartDeployments failU rec node.name restarts
    match r.out with
    | .err e => ⟨.err ("restart deployments from node " ++ node.name ++ ", " ++ e), r.record, []⟩
    | .panicked m => ⟨.panicked m, r.record, []⟩
    | .ok =>
      let evictablePods := drains.filter (fun p => p.isEvictable)
      let evicted := Evict evictablePods
      if pods.any (fun p => p.isWaitingEviction) then ⟨.nodeDrainError, r.record, evicted⟩
      else ⟨.ok, recErase r.record node.name, evicted⟩

/-- The restart-candidate list derived by one classification pass (the
first component of `GetRestartdeploymentsAndDrainPods`). -/
def restartCandidates (c : Cluster) (rec : Record) (pods : List Pod) (nodeName : String) :
    List Deployment :=
  match GetRestartdeploymentsAndDrainPods c rec pods nodeName with
  | .ok (rs, _) => rs
  | _ => []

/-- The deployment a pod resolves to, when resolution returns one. -/
def resOpt (c : Cluster) (p : Pod) : Option Deployment :=
  match GetDeploymentFromPod c p with
  | .ok (some d) => some d
  | _ => none

/-- Whether a pod resolves to a deployment without error. -/
def resolvesToDep (c : Cluster) (p : Pod) : Bool := (resOpt c p).isSome

/-- Whether a pod resolves to a deployment whose key is `k`. -/
def hitsKey (c : Cluster) (k : String) (p : Pod) : Bool :=
  match resOpt c p with
  | some d => dKey d = k
  | none => false

/-- Count of pods in a list that resolve to deployment key `k`. -/
def tallySpec (c : Cluster) (pods : List Pod) (k : String) : Nat :=
  pods.countP (hitsKey c k)

/-- Two resolved deployments sharing a key are the same deployment. -/
def keyInjB : Option Deployment → Option Deployment → Bool
  | some d, some d' => decide (dKey d = dKey d' → d = d')
  | _, _ => true

end Vendor

/-! Concrete fixtures used by counterexamples, code-bug evaluations and
witnesses. -/

/-- A bare pod: no owner references at all. -/
def podBare : Pod := ⟨"default", "p0", [], "", none, false, false, false⟩

/-- A pod with an owner reference whose `Controller` field is nil. -/
def podNilCtrl : Pod := ⟨"default", "p1", [⟨"ReplicaSet", "rs1", none⟩], "", none, false, false, false⟩

/-- A pod controlled by the ReplicaSet `web-rs`. -/
def podWeb : Pod :=
  ⟨"default", "web-pod", [⟨"ReplicaSet", "web-rs", some true⟩], "", some 30, false, false, true⟩

/-- A pod whose delete is exercised by the grace-period counterexample. -/
def podGrace : Pod := ⟨"default", "p", [], "", some 30, false, true, true⟩

/-- The ReplicaSet `web-rs`, controlled by deployment `web`. -/
def rsWeb : ReplicaSet := ⟨"default", "web-rs", [⟨"Deployment", "web", some true⟩]⟩

/-- Deployment `default/web` with one desired replica and no template
annotations. -/
def depWeb : Deployment := ⟨"default", "web", 1, []⟩

/-- Deployment `default/api`. -/
def depApi : Deployment := ⟨"default", "api", 1, []⟩

/-- Deployment `default/db`. -/
def depDb : Deployment := ⟨"default", "db", 1, []⟩

/-- Deployment `default/cache`. -/
def depCache : Deployment := ⟨"default", "cache", 1, []⟩

/-- The empty cluster. -/
def cluster0 : Cluster := ⟨[], []⟩

/-- A cluster containing the `web` ownership chain. -/
def clusterWeb : Cluster := ⟨[rsWeb], [depWeb]⟩

/-- Deployment `default/web` already stamped for node `n1` under the
`restartedNode` marker read by the vendor `RestartDeployments`. -/
def depWebStamped : Deployment :=
  ⟨"default", "web", 1, [(restartedNodeKey, "n1")]⟩

/-- A cluster whose `web` ownership chain resolves to the stamped
deployment. -/
def clusterWebStamped : Cluster := ⟨[rsWeb], [depWebStamped]⟩

/-- The `web` pod, in the waiting-eviction state. -/
def podWebWaiting : Pod :=
  ⟨"default", "web-pod", [⟨"ReplicaSet", "web-rs", some true⟩], "", some 30, false, true, true⟩

/-- A node with two taints sharing key `k` but differing in effect. -/
def nodeDupTaint : Node := ⟨"n", [⟨"k", "v1", "NoSchedule"⟩, ⟨"k", "v2", "NoExecute"⟩], []⟩

/-- The desired taint of the taint counterexample: key `k`, effect
`NoSchedule`. -/
def taintK : KTaint := ⟨"k", "v", "NoSchedule"⟩

/-- A deployment is resolved from a pod list when some pod of the list
resolves to it. -/
def inResolved (c : Cluster) (pods0 : List Pod) (d : Deployment) : Prop :=
  ∃ p ∈ pods0, Vendor.resOpt c p = some d

/-- Specification-side characterization of one pod's proactive delete,
used to state the amended C4: `some (name, grace)` when the pod is deleted
in this pass, `none` otherwise. -/
def deleteSpec (now dl : Int) (p : Pod) : Option (String × Int) :=
  match p.terminationGracePeriodSeconds with
  | some g => if dl - g < now then some (p.name, dl - now) else none
  | none => none

/-!  ## Theorems -/

theorem tiers_eq_filter (pods : List Pod) :
    (Part0.tiers pods).nonCriticalNonDaemon =
        pods.filter (fun p => !(isCritical p) && !(p.isOwnedByDaemonSet)) ∧
    (Part0.tiers pods).nonCriticalDaemon =
        pods.filter (fun p => !(isCritical p) && p.isOwnedByDaemonSet) ∧
    (Part0.tiers pods).criticalNonDaemon =
        pods.filter (fun p => isCritical p && !(p.isOwnedByDaemonSet)) ∧
    (Part0.tiers pods).criticalDaemon =
        pods.filter (fun p => isCritical p && p.isOwnedByDaemonSet) := by
  induction pods with
  | nil => simp [Part0.tiers]
  | cons p rest ih =>
    obtain ⟨h1, h2, h3, h4⟩ := ih
    cases hc : isCritical p <;> cases hd : p.isOwnedByDaemonSet <;>
      simp [Part0.tiers, hc, hd, h1, h2, h3, h4]

theorem evictInOrder_four (a b c d : List Pod) :
    Part0.EvictInOrder [a, b, c, d] =
      if a ≠ [] then a else if b ≠ [] then b else if c ≠ [] then c else d := by
  cases a <;> cases b <;> cases c <;> cases d <;> simp [Part0.EvictInOrder]

theorem mem_filter_incompat {l : List Pod} {f g : Pod → Bool}
    (h : ∀ p, ¬(f p = true ∧ g p = true)) {p : Pod}
    (hf : p ∈ l.filter f) (hg : p ∈ l.filter g) : False := by
  rw [List.mem_filter] at hf hg
  exact h p ⟨hf.2, hg.2⟩

theorem deleteGo_spec (failD : String → Bool) (now dl : Int) :
    ∀ (pods : List Pod) (acc : List (String × Int)),
      (∀ p ∈ pods, failD p.name = false) →
      Part0.deleteGo failD now (some dl) pods acc =
        (acc ++ pods.filterMap (deleteSpec now dl), true) := by
  intro pods
  induction pods with
  | nil => intro acc _; simp [Part0.deleteGo]
  | cons p rest ih =>
    intro acc h
    have hp : failD p.name = false := h p (by simp)
    have hrest : ∀ q ∈ rest, failD q.name = false := fun q hq => h q (by simp [hq])
    cases hg : p.terminationGracePeriodSeconds with
    | none =>
      simp [Part0.deleteGo, Part0.podDeleteTimeWithGracePeriod, hg, ih _ hrest, deleteSpec]
    | some g =>
      by_cases hlt : dl - g < now
      · simp [Part0.deleteGo, Part0.podDeleteTimeWithGracePeriod, hg, hlt, hp, ih _ hrest,
          deleteSpec]
      · simp [Part0.deleteGo, Part0.podDeleteTimeWithGracePeriod, hg, hlt, ih _ hrest, deleteSpec]

/-- C5: the claim says a pod with no resolved deployment is placed in the
drain set and resolution returns no error.  On the vendor code the
classification pass instead panics: for a bare pod the cache holds a nil
deployment, and line 251 computes `deployment.Namespace + "/" +
deployment.Name` before the `deployment != nil` check of line 252, a nil
pointer dereference. -/
theorem spec_C5_bug :
    Vendor.GetRestartdeploymentsAndDrainPods cluster0 [] [podBare] "n1" =
      .panicked "invalid memory address or nil pointer dereference" := rfl

/-- C10: the claim says deployment resolution is total and never treats an
owner reference with an unset controller field as controlling.  The
part_000 resolver evaluates `*ownerRef.Controller` before any nil check
(line 99), so a pod carrying an owner reference with a nil `Controller`
makes resolution panic instead of completing. -/
theorem spec_C10_bug :
    Part0.GetDeploymentFromPod cluster0 podNilCtrl =
      .panicked "invalid memory address or nil pointer dereference" := rfl

/-- C7: the claim says `RestartDeployments` attempts every deployment and
aggregates all update failures into one combined error.  On the vendor
code the very first non-skipped deployment triggers
`t.nodeRestartDeployments[nodeName][key] = struct{}{}` (line 214) with a
never-initialized inner map: a Go panic before any `Update` call, so with
two deployments whose updates would fail, zero updates are attempted and
no combined error is produced. -/
theorem spec_C7_bug :
    (Vendor.RestartDeployments (fun _ => true) [] "n1" [depApi, depDb]).updates = [] ∧
    (Vendor.RestartDeployments (fun _ => true) [] "n1" [depApi, depDb]).out =
      .panicked "assignment to entry in nil map" := ⟨rfl, rfl⟩

/-- C9: the claim says a RestartRecord entry is added only after the
deployment's update has succeeded.  In the vendor code the store into the
record (line 214) precedes the `Update` call (line 217): on a fresh
terminator the store itself panics before any update, and even with the
inner map pre-seeded a deployment whose update fails keeps its record
entry. -/
theorem spec_C9_bug :
    ((Vendor.RestartDeployments (fun _ => false) [] "n1" [depCache]).out =
        .panicked "assignment to entry in nil map" ∧
      (Vendor.RestartDeployments (fun _ => false) [] "n1" [depCache]).updates = []) ∧
    (lookupStr (Vendor.RestartDeployments (fun _ => true) [("n1", [])] "n1" [depCache]).record
        "n1" = some ["default/cache"] ∧
      (Vendor.RestartDeployments (fun _ => true) [("n1", [])] "n1" [depCache]).failedKeys =
        ["default/cache"] ∧
      (Vendor.RestartDeployments (fun _ => true) [("n1", [])] "n1" [depCache]).out =
        .err "failed to restart some deployment") :=
  ⟨⟨rfl, rfl⟩, rfl, rfl, rfl⟩

/-- C6: the claim says restarting the same deployment for the same node
twice performs exactly one `Update` (the second invocation is skipped by
the marker).  The part_000 code checks the annotation
`kubectl.kubernetes.io/restartedNode` (line 136) but stamps
`kubectl.kubernetes.io/restartedAt` (line 146), so the stamp is never seen
by the check and the second invocation issues a second `Update`. -/
theorem spec_C6_bug :
    (Part0.RestartDeployments (fun _ => false) "n1" [depWeb]).2.1 = ["default/web"] ∧
    (Part0.RestartDeployments (fun _ => false) "n1"
        (Part0.RestartDeployments (fun _ => false) "n1" [depWeb]).1).2.1 = ["default/web"] :=
  ⟨rfl, rfl⟩

/-- C4 counterexample: with deadline 100, pod grace period 30 and now =
110 (past the deadline), the pod is deleted with grace-period seconds
`-10`, not `max 0 (100 - 110) = 0`: the code computes
`time.Until(deadline)` with no clamp at zero. -/
theorem spec_C4_counterexample :
    (Part0.DeleteExpiringPods (fun _ => false) 110 [podGrace] (some 100) =
      ([("p", -10)], true)) ∧ ¬ ((-10 : Int) = max 0 (100 - 110)) :=
  ⟨rfl, by decide⟩

/-- C8 counterexample: a node carrying two taints with key `k` (effects
`NoSchedule` and `NoExecute`), tainted with key `k` effect `NoSchedule`:
the existing key+effect match makes `Taint` leave the taint slice alone,
so two taints with the desired key survive and the claimed at-most-one
invariant fails. -/
theorem spec_C8_counterexample :
    ¬ ((Part0.Taint nodeDupTaint taintK).taints.countP (fun t => t.key = taintK.key) ≤ 1) := by
  decide

/-- C3: `Evict` partitions the pods into the four disjoint
criticality/daemon tiers (each tier is exactly the pods satisfying its
predicate, every pod lands in some tier, and the tiers are pairwise
disjoint), and submits to the eviction queue exactly the first non-empty
tier in the order nonCriticalNonDaemon, nonCriticalDaemon,
criticalNonDaemon, criticalDaemon; no pod of a later tier is submitted. -/
theorem spec_C3 (pods : List Pod) :
    ((Part0.tiers pods).nonCriticalNonDaemon =
        pods.filter (fun p => !(isCritical p) && !(p.isOwnedByDaemonSet)) ∧
      (Part0.tiers pods).nonCriticalDaemon =
        pods.filter (fun p => !(isCritical p) && p.isOwnedByDaemonSet) ∧
      (Part0.tiers pods).criticalNonDaemon =
        pods.filter (fun p => isCritical p && !(p.isOwnedByDaemonSet)) ∧
      (Part0.tiers pods).criticalDaemon =
        pods.filter (fun p => isCritical p && p.isOwnedByDaemonSet)) ∧
    (∀ p ∈ pods,
      p ∈ (Part0.tiers pods).nonCriticalNonDaemon ∨ p ∈ (Part0.tiers pods).nonCriticalDaemon ∨
      p ∈ (Part0.tiers pods).criticalNonDaemon ∨ p ∈ (Part0.tiers pods).criticalDaemon) ∧
    (∀ p : Pod, ¬(p ∈ (Part0.tiers pods).nonCriticalNonDaemon ∧
        p ∈ (Part0.tiers pods).nonCriticalDaemon) ∧
      ¬(p ∈ (Part0.tiers pods).nonCriticalNonDaemon ∧
        p ∈ (Part0.tiers pods).criticalNonDaemon) ∧
      ¬(p ∈ (Part0.tiers pods).nonCriticalNonDaemon ∧
        p ∈ (Part0.tiers pods).criticalDaemon) ∧
      ¬(p ∈ (Part0.tiers pods).nonCriticalDaemon ∧
        p ∈ (Part0.tiers pods).criticalNonDaemon) ∧
      ¬(p ∈ (Part0.tiers pods).nonCriticalDaemon ∧
        p ∈ (Part0.tiers pods).criticalDaemon) ∧
      ¬(p ∈ (Part0.tiers pods).criticalNonDaemon ∧
        p ∈ (Part0.tiers pods).criticalDaemon)) ∧
    (Part0.Evict pods =
      if (Part0.tiers pods).nonCriticalNonDaemon ≠ [] then
        (Part0.tiers pods).nonCriticalNonDaemon
      else if (Part0.tiers pods).nonCriticalDaemon ≠ [] then
        (Part0.tiers pods).nonCriticalDaemon
      else if (Part0.tiers pods).criticalNonDaemon ≠ [] then
        (Part0.tiers pods).criticalNonDaemon
      else (Part0.tiers pods).criticalDaemon) ∧
    ((Part0.tiers pods).nonCriticalNonDaemon ≠ [] →
      ∀ p : Pod,
        (p ∈ (Part0.tiers pods).nonCriticalDaemon ∨ p ∈ (Part0.tiers pods).criticalNonDaemon ∨
          p ∈ (Part0.tiers pods).criticalDaemon) → p ∉ Part0.Evict pods) ∧
    ((Part0.tiers pods).nonCriticalNonDaemon = [] → (Part0.tiers pods).nonCriticalDaemon ≠ [] →
      ∀ p : Pod,
        (p ∈ (Part0.tiers pods).criticalNonDaemon ∨ p ∈ (Part0.tiers pods).criticalDaemon) →
          p ∉ Part0.Evict pods) ∧
    ((Part0.tiers pods).nonCriticalNonDaemon = [] → (Part0.tiers pods).nonCriticalDaemon = [] →
      (Part0.tiers pods).criticalNonDaemon ≠ [] →
      ∀ p ∈ (Part0.tiers pods).criticalDaemon, p ∉ Part0.Evict pods) := by
  obtain ⟨h1, h2, h3, h4⟩ := tiers_eq_filter pods
  have hd12 : ∀ p : Pod, ¬((!(isCritical p) && !(p.isOwnedByDaemonSet)) = true ∧
      (!(isCritical p) && p.isOwnedByDaemonSet) = true) := by
    intro p; cases hc : isCritical p <;> cases hd : p.isOwnedByDaemonSet <;> simp [hc, hd]
  have hd13 : ∀ p : Pod, ¬((!(isCritical p) && !(p.isOwnedByDaemonSet)) = true ∧
      (isCritical p && !(p.isOwnedByDaemonSet)) = true) := by
    intro p; cases hc : isCritical p <;> cases hd : p.isOwnedByDaemonSet <;> simp [hc, hd]
  have hd14 : ∀ p : Pod, ¬((!(isCritical p) && !(p.isOwnedByDaemonSet)) = true ∧
      (isCritical p && p.isOwnedByDaemonSet) = true) := by
    intro p; cases hc : isCritical p <;> cases hd : p.isOwnedByDaemonSet <;> simp [hc, hd]
  have hd23 : ∀ p : Pod, ¬((!(isCritical p) && p.isOwnedByDaemonSet) = true ∧
      (isCritical p && !(p.isOwnedByDaemonSet)) = true) := by
    intro p; cases hc : isCritical p <;> cases hd : p.isOwnedByDaemonSet <;> simp [hc, hd]
  have hd24 : ∀ p : Pod, ¬((!(isCritical p) && p.isOwnedByDaemonSet) = true ∧
      (isCritical p && p.isOwnedByDaemonSet) = true) := by
    intro p; cases hc : isCritical p <;> cases hd : p.isOwnedByDaemonSet <;> simp [hc, hd]
  have hd34 : ∀ p : Pod, ¬((isCritical p && !(p.isOwnedByDaemonSet)) = true ∧
      (isCritical p && p.isOwnedByDaemonSet) = true) := by
    intro p; cases hc : isCritical p <;> cases hd : p.isOwnedByDaemonSet <;> simp [hc, hd]
  have hev : Part0.Evict pods =
      if (Part0.tiers pods).nonCriticalNonDaemon ≠ [] then
        (Part0.tiers pods).nonCriticalNonDaemon
      else if (Part0.tiers pods).nonCriticalDaemon ≠ [] then
        (Part0.tiers pods).nonCriticalDaemon
      else if (Part0.tiers pods).criticalNonDaemon ≠ [] then
        (Part0.tiers pods).criticalNonDaemon
      else (Part0.tiers pods).criticalDaemon := by
    show Part0.EvictInOrder _ = _
    exact evictInOrder_four _ _ _ _
  refine ⟨⟨h1, h2, h3, h4⟩, ?_, ?_, hev, ?_, ?_, ?_⟩
  · intro p hp
    rw [h1, h2, h3, h4]
    simp only [List.mem_filter]
    cases hc : isCritical p <;> cases hd : p.isOwnedByDaemonSet <;> simp [hp, hc, hd]
  · intro p
    rw [h1, h2, h3, h4]
    exact ⟨fun h => mem_filter_incompat (hd12) h.1 h.2,
      fun h => mem_filter_incompat (hd13) h.1 h.2,
      fun h => mem_filter_incompat (hd14) h.1 h.2,
      fun h => mem_filter_incompat (hd23) h.1 h.2,
      fun h => mem_filter_incompat (hd24) h.1 h.2,
      fun h => mem_filter_incompat (hd34) h.1 h.2⟩
  · intro hne p hmem hev'
    rw [hev, if_pos hne] at hev'
    rcases hmem with hm | hm | hm
    · exact mem_filter_incompat hd12 (h1 ▸ hev') (h2 ▸ hm)
    · exact mem_filter_incompat hd13 (h1 ▸ hev') (h3 ▸ hm)
    · exact mem_filter_incompat hd14 (h1 ▸ hev') (h4 ▸ hm)
  · intro he1 hne p hmem hev'
    rw [hev, if_neg (by simp [he1]), if_pos hne] at hev'
    rcases hmem with hm | hm
    · exact mem_filter_incompat hd23 (h2 ▸ hev') (h3 ▸ hm)
    · exact mem_filter_incompat hd24 (h2 ▸ hev') (h4 ▸ hm)
  · intro he1 he2 hne p hmem hev'
    rw [hev, if_neg (by simp [he1]), if_neg (by simp [he2]), if_pos hne] at hev'
    exact mem_filter_incompat hd34 (h3 ▸ hev') (h4 ▸ hmem)

/-- C4 (amended): with deadline `dl` and all deletes succeeding, the delete
calls issued by `DeleteExpiringPods` are exactly `some (p.name, dl - now)`
for the pods whose configured grace period `g` satisfies `now > dl - g`
(so a pod is proactively deleted exactly when now is past deadline minus
grace period), and the issued grace period is `dl - now` — the remaining
time to the deadline, NOT clamped at zero — which is always strictly less
than `g`, hence never equal to the pod's own configured value. -/
theorem spec_C4_theorem (failD : String → Bool) (now dl : Int) (pods : List Pod)
    (hfail : ∀ p ∈ pods, failD p.name = false) :
    Part0.DeleteExpiringPods failD now pods (some dl) =
      (pods.filterMap (deleteSpec now dl), true) ∧
    ∀ p ∈ pods, ∀ g : Int, p.terminationGracePeriodSeconds = some g → dl - g < now →
      dl - now < g := by
  refine ⟨?_, ?_⟩
  · simpa [Part0.DeleteExpiringPods] using deleteGo_spec failD now dl pods [] hfail
  · intro p _ g _ h
    omega

theorem spec_C4_witness :
    (∀ p ∈ [podGrace], (fun _ => false : String → Bool) p.name = false) ∧
    (Part0.DeleteExpiringPods (fun _ => false) 90 [podGrace] (some 100) =
        ([podGrace].filterMap (deleteSpec 90 100), true) ∧
      ∀ p ∈ [podGrace], ∀ g : Int, p.terminationGracePeriodSeconds = some g →
        100 - g < 90 → 100 - 90 < g) :=
  ⟨by decide, spec_C4_theorem (fun _ => false) 90 100 [podGrace] (by decide)⟩

/-- C8 (amended): `Taint` treats a taint as already present when its key
and effect match the desired taint (value ignored, leaving the taints
unchanged), otherwise removes every taint sharing the key and appends the
desired one; the load-balancer-exclusion label is always present
afterwards; and the at-most-one-taint-per-desired-key invariant is
PRESERVED (it holds afterwards provided it held before — it is not
established from an arbitrary initial taint slice, see the
counterexample). -/
theorem spec_C8_theorem (node : Node) (taint : KTaint)
    (hone : node.taints.countP (fun t => t.key = taint.key) ≤ 1) :
    ((Part0.Taint node taint).taints.countP (fun t => t.key = taint.key) ≤ 1) ∧
    lookupStr (Part0.Taint node taint).labels excludeBalancersKey = some "karpenter" ∧
    (node.taints.any (fun t => matchTaint t taint) = false →
      (Part0.Taint node taint).taints =
        node.taints.filter (fun t => ¬ t.key = taint.key) ++ [taint]) ∧
    (node.taints.any (fun t => matchTaint t taint) = true →
      (Part0.Taint node taint).taints = node.taints) := by
  have hfilter : (node.taints.filter (fun t => ¬ t.key = taint.key)).countP
      (fun t => t.key = taint.key) = 0 := by
    rw [List.countP_eq_zero]
    intro a ha
    rw [List.mem_filter] at ha
    have := ha.2
    simp only [decide_eq_true_eq] at this ⊢
    exact this
  refine ⟨?_, ?_, ?_, ?_⟩
  · by_cases hmatch : node.taints.any (fun t => matchTaint t taint) = true
    · simp only [Part0.Taint, hmatch, if_true]
      exact hone
    · simp only [Bool.not_eq_true] at hmatch
      simp only [Part0.Taint, hmatch]
      rw [if_neg (by simp), List.countP_append, hfilter]
      simp
  · simp [Part0.Taint, lookupStr]
  · intro hmatch
    simp [Part0.Taint, hmatch]
  · intro hmatch
    simp [Part0.Taint, hmatch]

theorem spec_C8_witness :
    ((Node.mk "n" [⟨"k", "v0", "NoExecute"⟩] []).taints.countP
        (fun t => t.key = taintK.key) ≤ 1) ∧
    (((Part0.Taint (Node.mk "n" [⟨"k", "v0", "NoExecute"⟩] []) taintK).taints.countP
        (fun t => t.key = taintK.key) ≤ 1) ∧
      lookupStr (Part0.Taint (Node.mk "n" [⟨"k", "v0", "NoExecute"⟩] []) taintK).labels
        excludeBalancersKey = some "karpenter" ∧
      ((Node.mk "n" [⟨"k", "v0", "NoExecute"⟩] []).taints.any
          (fun t => matchTaint t taintK) = false →
        (Part0.Taint (Node.mk "n" [⟨"k", "v0", "NoExecute"⟩] []) taintK).taints =
          (Node.mk "n" [⟨"k", "v0", "NoExecute"⟩] []).taints.filter
            (fun t => ¬ t.key = taintK.key) ++ [taintK]) ∧
      ((Node.mk "n" [⟨"k", "v0", "NoExecute"⟩] []).taints.any
          (fun t => matchTaint t taintK) = true →
        (Part0.Taint (Node.mk "n" [⟨"k", "v0", "NoExecute"⟩] []) taintK).taints =
          (Node.mk "n" [⟨"k", "v0", "NoExecute"⟩] []).taints)) :=
  ⟨by decide, spec_C8_theorem (Node.mk "n" [⟨"k", "v0", "NoExecute"⟩] []) taintK (by decide)⟩

theorem tGet_bump (t : List (String × Int)) (j k : String) :
    Vendor.tGet (Vendor.bump t j) k =
      if j = k then Vendor.tGet t k + 1 else Vendor.tGet t k := by
  by_cases h : j = k
  · subst h; simp [Vendor.bump, Vendor.tGet, lookupStr]
  · simp [Vendor.bump, Vendor.tGet, lookupStr, h]

theorem resOpt_some {c : Cluster} {p : Pod} {d : Deployment} :
    Vendor.resOpt c p = some d ↔ Vendor.GetDeploymentFromPod c p = .ok (some d) := by
  rcases h : Vendor.GetDeploymentFromPod c p with d? | e | m
  · rcases d? with _ | d' <;> simp [Vendor.resOpt, h]
  · simp [Vendor.resOpt, h]
  · simp [Vendor.resOpt, h]

theorem resolvesToDep_true {c : Cluster} {p : Pod} :
    Vendor.resolvesToDep c p = true ↔ ∃ d, Vendor.resOpt c p = some d := by
  simp [Vendor.resolvesToDep, Option.isSome_iff_exists]

theorem keyInjB_spec {a b : Option Deployment} (h : Vendor.keyInjB a b = true)
    {d d' : Deployment} (ha : a = some d) (hb : b = some d')
    (hk : Vendor.dKey d = Vendor.dKey d') : d = d' := by
  subst ha; subst hb
  simp only [Vendor.keyInjB, decide_eq_true_eq] at h
  exact h hk

theorem pass1_spec (c : Cluster) :
    ∀ (rest : List Pod) (cache : Vendor.Cache) (tally : List (String × Int)),
      (∀ p ∈ rest, Vendor.resolvesToDep c p = true) →
      (∀ p ∈ rest, Vendor.cGet cache (Vendor.podKey p) = none) →
      ((rest.map Vendor.podKey).Nodup) →
      ∃ cacheF tallyF,
        Vendor.pass1 c rest cache tally = .ok (cacheF, tallyF) ∧
        (∀ p ∈ rest, Vendor.cGet cacheF (Vendor.podKey p) = some (Vendor.resOpt c p)) ∧
        (∀ k v, Vendor.cGet cache k = some v → Vendor.cGet cacheF k = some v) ∧
        (∀ k, Vendor.tGet tallyF k =
          Vendor.tGet tally k + (Vendor.tallySpec c rest k : Int)) := by
  intro rest
  induction rest with
  | nil =>
    intro cache tally _ _ _
    exact ⟨cache, tally, rfl, by simp, fun k v h => h, by simp [Vendor.tallySpec]⟩
  | cons p rest ih =>
    intro cache tally hres hnone hnd
    obtain ⟨d, hd⟩ := resolvesToDep_true.mp (hres p (by simp))
    have hmiss : Vendor.cGet cache (Vendor.podKey p) = none := hnone p (by simp)
    have hge : Vendor.GetDeploymentFromPod c p = .ok (some d) := resOpt_some.mp hd
    have hstep : Vendor.pass1 c (p :: rest) cache tally =
        Vendor.pass1 c rest ((Vendor.podKey p, some d) :: cache)
          (Vendor.bump tally (Vendor.dKey d)) := by
      simp [Vendor.pass1, Vendor.getDeploymentFromCache, hmiss, hge]
    rw [List.map_cons, List.nodup_cons] at hnd
    obtain ⟨hkey_notmem, hnd'⟩ := hnd
    have hnone' : ∀ q ∈ rest,
        Vendor.cGet ((Vendor.podKey p, some d) :: cache) (Vendor.podKey q) = none := by
      intro q hq
      have hne : ¬ Vendor.podKey p = Vendor.podKey q := by
        intro he; exact hkey_notmem (he ▸ List.mem_map_of_mem Vendor.podKey hq)
      simpa [Vendor.cGet, lookupStr, hne] using hnone q (by simp [hq])
    obtain ⟨cacheF, tallyF, heq, hA, hB, hC⟩ :=
      ih ((Vendor.podKey p, some d) :: cache) (Vendor.bump tally (Vendor.dKey d))
        (fun q hq => hres q (by simp [hq])) hnone' hnd'
    refine ⟨cacheF, tallyF, by rw [hstep]; exact heq, ?_, ?_, ?_⟩
    · intro q hq
      rcases List.mem_cons.mp hq with rfl | hq'
      · rw [hd]
        exact hB _ _ (by simp [Vendor.cGet, lookupStr])
      · exact hA q hq'
    · intro k v hkv
      have hne : ¬ Vendor.podKey p = k := by
        intro he
        rw [← he, hmiss] at hkv
        exact Option.noConfusion hkv
      exact hB k v (by simpa [Vendor.cGet, lookupStr, hne] using hkv)
    · intro k
      rw [hC k, tGet_bump]
      have hcnt : Vendor.tallySpec c (p :: rest) k =
          Vendor.tallySpec c rest k + (if Vendor.hitsKey c k p then 1 else 0) := by
        simp [Vendor.tallySpec, List.countP_cons]
      have hh : Vendor.hitsKey c k p = decide (Vendor.dKey d = k) := by
        simp [Vendor.hitsKey, hd]
      rw [hcnt, hh]
      by_cases hk : Vendor.dKey d = k
      · simp [hk]
        omega
      · simp [hk]

theorem pass2_spec (c : Cluster) (rec : Vendor.Record) (nodeName : String)
    (cache : Vendor.Cache) (tally : List (String × Int)) (pods0 : List Pod)
    (hinj : ∀ d d', inResolved c pods0 d → inResolved c pods0 d' →
      Vendor.dKey d = Vendor.dKey d' → d = d') :
    ∀ (rest : List Pod) (uniq : List String) (rs : List Deployment) (dr : List Pod),
      (∀ p ∈ rest, p ∈ pods0) →
      (∀ p ∈ rest, Vendor.cGet cache (Vendor.podKey p) = some (Vendor.resOpt c p)) →
      (∀ p ∈ rest, Vendor.resolvesToDep c p = true) →
      (∀ d ∈ rs, uniq.contains (Vendor.dKey d) = true) →
      (∀ k, uniq.contains k = true → ∃ d ∈ rs, Vendor.dKey d = k) →
      ((rs.map Vendor.dKey).Nodup) →
      (∀ d ∈ rs, Vendor.tGet tally (Vendor.dKey d) = d.replicas) →
      (∀ d ∈ rs, inResolved c pods0 d) →
      ∃ rsF drF,
        Vendor.pass2 rec nodeName cache tally rest uniq rs dr = .ok (rsF, drF) ∧
        (∀ d, d ∈ rsF ↔ d ∈ rs ∨ ∃ p ∈ rest, Vendor.resOpt c p = some d ∧
          Vendor.tGet tally (Vendor.dKey d) = d.replicas) ∧
        ((rsF.map Vendor.dKey).Nodup) := by
  intro rest
  induction rest with
  | nil =>
    intro uniq rs dr _ _ _ _ _ hnd _ _
    exact ⟨rs, dr, rfl, fun d => by simp, hnd⟩
  | cons p rest ih =>
    intro uniq rs dr hsub hcache hres hI1 hI2 hnd hI4 hI5
    obtain ⟨d, hd⟩ := resolvesToDep_true.mp (hres p (by simp))
    have hcp : Vendor.cGet cache (Vendor.podKey p) = some (Vendor.resOpt c p) :=
      hcache p (by simp)
    rw [hd] at hcp
    have hget : (Vendor.cGet cache (Vendor.podKey p)).getD none = some d := by
      rw [hcp]; rfl
    by_cases hcond : Vendor.tGet tally (Vendor.dKey d) = d.replicas
    · by_cases huniq : uniq.contains (Vendor.dKey d) = true
      · -- the key is already recorded: the same deployment is already in rs
        have hdin : d ∈ rs := by
          obtain ⟨d', hd'in, hd'k⟩ := hI2 _ huniq
          have hdd : d' = d :=
            hinj d' d (hI5 d' hd'in) ⟨p, hsub p (by simp), hd⟩ hd'k
          rwa [← hdd]
        have hmem : Vendor.dKey d ∈ uniq := by simpa using huniq
        have hstep : Vendor.pass2 rec nodeName cache tally (p :: rest) uniq rs dr =
            Vendor.pass2 rec nodeName cache tally rest uniq rs dr := by
          simp [Vendor.pass2, hget, hcond, huniq, hmem]
        obtain ⟨rsF, drF, heq, hiff, hndF⟩ :=
          ih uniq rs dr (fun q hq => hsub q (by simp [hq]))
            (fun q hq => hcache q (by simp [hq])) (fun q hq => hres q (by simp [hq]))
            hI1 hI2 hnd hI4 hI5
        refine ⟨rsF, drF, hstep ▸ heq, ?_, hndF⟩
        intro d0
        rw [hiff d0]
        constructor
        · rintro (h | ⟨q, hq, hq1, hq2⟩)
          · exact Or.inl h
          · exact Or.inr ⟨q, by simp [hq], hq1, hq2⟩
        · rintro (h | ⟨q, hq, hq1, hq2⟩)
          · exact Or.inl h
          · rcases List.mem_cons.mp hq with rfl | hq'
            · rw [hd] at hq1
              obtain rfl : d = d0 := by injection hq1
              exact Or.inl hdin
            · exact Or.inr ⟨q, hq', hq1, hq2⟩
      · -- new key: d is appended to the restart list and its key recorded
        have hnotmem : Vendor.dKey d ∉ uniq := by simpa using huniq
        have hstep : Vendor.pass2 rec nodeName cache tally (p :: rest) uniq rs dr =
            Vendor.pass2 rec nodeName cache tally rest (Vendor.dKey d :: uniq)
              (rs ++ [d]) dr := by
          simp [Vendor.pass2, hget, hcond, hnotmem]
        have hI1' : ∀ d0 ∈ rs ++ [d],
            (Vendor.dKey d :: uniq).contains (Vendor.dKey d0) = true := by
          intro d0 h0
          rcases List.mem_append.mp h0 with h0 | h0
          · have hm : Vendor.dKey d0 ∈ uniq := by simpa using hI1 d0 h0
            simpa using List.mem_cons_of_mem (Vendor.dKey d) hm
          · simp at h0
            subst h0
            simp
        have hI2' : ∀ k, (Vendor.dKey d :: uniq).contains k = true →
            ∃ d0 ∈ rs ++ [d], Vendor.dKey d0 = k := by
          intro k hk
          have hk' : k ∈ Vendor.dKey d :: uniq := by simpa using hk
          rcases List.mem_cons.mp hk' with rfl | hk2
          · exact ⟨d, by simp, rfl⟩
          · obtain ⟨d0, h0, h0k⟩ := hI2 k (by simpa using hk2)
            exact ⟨d0, by simp [h0], h0k⟩
        have hknot : Vendor.dKey d ∉ rs.map Vendor.dKey := by
          intro hmem
          obtain ⟨d', hd'in, hd'k⟩ := List.mem_map.mp hmem
          have hcon := hI1 d' hd'in
          rw [hd'k] at hcon
          have : Vendor.dKey d ∈ uniq := by simpa using hcon
          exact hnotmem this
        have hnd2 : ((rs ++ [d]).map Vendor.dKey).Nodup := by
          rw [List.map_append, List.nodup_append]
          refine ⟨hnd, by simp, ?_⟩
          intro a ha hb
          simp only [List.map_cons, List.map_nil, List.mem_singleton] at hb
          subst hb
          exact hknot ha
        have hI4' : ∀ d0 ∈ rs ++ [d], Vendor.tGet tally (Vendor.dKey d0) = d0.replicas := by
          intro d0 h0
          rcases List.mem_append.mp h0 with h0 | h0
          · exact hI4 d0 h0
          · simp at h0; subst h0; exact hcond
        have hI5' : ∀ d0 ∈ rs ++ [d], inResolved c pods0 d0 := by
          intro d0 h0
          rcases List.mem_append.mp h0 with h0 | h0
          · exact hI5 d0 h0
          · simp at h0; subst h0; exact ⟨p, hsub p (by simp), hd⟩
        obtain ⟨rsF, drF, heq, hiff, hndF⟩ :=
          ih (Vendor.dKey d :: uniq) (rs ++ [d]) dr (fun q hq => hsub q (by simp [hq]))
            (fun q hq => hcache q (by simp [hq])) (fun q hq => hres q (by simp [hq]))
            hI1' hI2' hnd2 hI4' hI5'
        refine ⟨rsF, drF, hstep ▸ heq, ?_, hndF⟩
        intro d0
        rw [hiff d0]
        constructor
        · rintro (h | ⟨q, hq, hq1, hq2⟩)
          · rcases List.mem_append.mp h with h | h
            · exact Or.inl h
            · simp at h; subst h
              exact Or.inr ⟨p, by simp, hd, hcond⟩
          · exact Or.inr ⟨q, by simp [hq], hq1, hq2⟩
        · rintro (h | ⟨q, hq, hq1, hq2⟩)
          · exact Or.inl (List.mem_append.mpr (Or.inl h))
          · rcases List.mem_cons.mp hq with rfl | hq'
            · rw [hd] at hq1
              obtain rfl : d = d0 := by injection hq1
              exact Or.inl (by simp)
            · exact Or.inr ⟨q, hq', hq1, hq2⟩
    · -- the deployment does not have all replicas on this node: pod drains
      have hstep : Vendor.pass2 rec nodeName cache tally (p :: rest) uniq rs dr =
          Vendor.pass2 rec nodeName cache tally rest uniq rs
            (if Vendor.recHas rec nodeName (Vendor.dKey d) then dr else dr ++ [p]) := by
        by_cases hrh : Vendor.recHas rec nodeName (Vendor.dKey d) = true
        · simp [Vendor.pass2, hget, hcond, hrh]
        · have hrh' : Vendor.recHas rec nodeName (Vendor.dKey d) = false := by simpa using hrh
          simp [Vendor.pass2, hget, hcond, hrh']
      obtain ⟨rsF, drF, heq, hiff, hndF⟩ :=
        ih uniq rs (if Vendor.recHas rec nodeName (Vendor.dKey d) then dr else dr ++ [p])
          (fun q hq => hsub q (by simp [hq])) (fun q hq => hcache q (by simp [hq]))
          (fun q hq => hres q (by simp [hq])) hI1 hI2 hnd hI4 hI5
      refine ⟨rsF, drF, hstep ▸ heq, ?_, hndF⟩
      intro d0
      rw [hiff d0]
      constructor
      · rintro (h | ⟨q, hq, hq1, hq2⟩)
        · exact Or.inl h
        · exact Or.inr ⟨q, by simp [hq], hq1, hq2⟩
      · rintro (h | ⟨q, hq, hq1, hq2⟩)
        · exact Or.inl h
        · rcases List.mem_cons.mp hq with rfl | hq'
          · rw [hd] at hq1
            obtain rfl : d = d0 := by injection hq1
            exact absurd hq2 hcond
          · exact Or.inr ⟨q, hq', hq1, hq2⟩

theorem pass2_ok (rec : Vendor.Record) (nodeName : String) (cache : Vendor.Cache)
    (tally : List (String × Int)) :
    ∀ (rest : List Pod) (uniq : List String) (rs : List Deployment) (dr : List Pod),
      (∀ p ∈ rest, ∃ d, (Vendor.cGet cache (Vendor.podKey p)).getD none = some d) →
      ∃ rsF drF, Vendor.pass2 rec nodeName cache tally rest uniq rs dr = .ok (rsF, drF) := by
  intro rest
  induction rest with
  | nil => intro uniq rs dr _; exact ⟨rs, dr, rfl⟩
  | cons p rest ih =>
    intro uniq rs dr h
    obtain ⟨d, hd⟩ := h p (by simp)
    have htail : ∀ q ∈ rest, ∃ d0, (Vendor.cGet cache (Vendor.podKey q)).getD none = some d0 :=
      fun q hq => h q (by simp [hq])
    by_cases hcond : Vendor.tGet tally (Vendor.dKey d) = d.replicas
    · by_cases hu : Vendor.dKey d ∈ uniq
      · obtain ⟨rsF, drF, heq⟩ := ih uniq rs dr htail
        refine ⟨rsF, drF, ?_⟩
        have hstep : Vendor.pass2 rec nodeName cache tally (p :: rest) uniq rs dr =
            Vendor.pass2 rec nodeName cache tally rest uniq rs dr := by
          simp [Vendor.pass2, hd, hcond, hu]
        rw [hstep]; exact heq
      · obtain ⟨rsF, drF, heq⟩ := ih (Vendor.dKey d :: uniq) (rs ++ [d]) dr htail
        refine ⟨rsF, drF, ?_⟩
        have hstep : Vendor.pass2 rec nodeName cache tally (p :: rest) uniq rs dr =
            Vendor.pass2 rec nodeName cache tally rest (Vendor.dKey d :: uniq) (rs ++ [d]) dr := by
          simp [Vendor.pass2, hd, hcond, hu]
        rw [hstep]; exact heq
    · by_cases hr : Vendor.recHas rec nodeName (Vendor.dKey d) = true
      · obtain ⟨rsF, drF, heq⟩ := ih uniq rs dr htail
        refine ⟨rsF, drF, ?_⟩
        have hstep : Vendor.pass2 rec nodeName cache tally (p :: rest) uniq rs dr =
            Vendor.pass2 rec nodeName cache tally rest uniq rs dr := by
          simp [Vendor.pass2, hd, hcond, hr]
        rw [hstep]; exact heq
      · obtain ⟨rsF, drF, heq⟩ := ih uniq rs (dr ++ [p]) htail
        refine ⟨rsF, drF, ?_⟩
        have hr' : Vendor.recHas rec nodeName (Vendor.dKey d) = false := by simpa using hr
        have hstep : Vendor.pass2 rec nodeName cache tally (p :: rest) uniq rs dr =
            Vendor.pass2 rec nodeName cache tally rest uniq rs (dr ++ [p]) := by
          simp [Vendor.pass2, hd, hcond, hr']
        rw [hstep]; exact heq

theorem restartGo_skip_all (failU : String → Bool) (nodeName : String) :
    ∀ (ds : List Deployment) (rec : Vendor.Record) (ups fails : List String),
      (∀ d ∈ ds, lookupStr d.templateAnn restartedNodeKey = some nodeName) →
      Vendor.restartGo failU nodeName ds rec ups fails =
        ⟨rec, ups, fails,
          if fails.isEmpty then .ok else .err "failed to restart some deployment"⟩ := by
  intro ds
  induction ds with
  | nil => intro rec ups fails _; rfl
  | cons d rest ih =>
    intro rec ups fails h
    have hd := h d (by simp)
    have hstep : Vendor.restartGo failU nodeName (d :: rest) rec ups fails =
        Vendor.restartGo failU nodeName rest rec ups fails := by
      simp [Vendor.restartGo, hd]
    rw [hstep]
    exact ih rec ups fails (fun q hq => h q (by simp [hq]))

/-- C1: for one classification pass over the pods of a node (vendor
`GetRestartdeploymentsAndDrainPods`), provided every pod resolves to a
deployment (a bare pod panics instead, see C5), pod keys are distinct, and
distinct resolved deployments have distinct keys, a deployment D resolved
from those pods is in the restart list iff the number of pods resolving to
D equals D's desired replica count, and D appears in the restart list at
most once (dedup by key) — hence exactly once when it qualifies. -/
theorem spec_C1 (c : Cluster) (rec : Vendor.Record) (pods : List Pod) (nodeName : String)
    (hres : ∀ p ∈ pods, Vendor.resolvesToDep c p = true)
    (hnd : (pods.map Vendor.podKey).Nodup)
    (hinj : ∀ p ∈ pods, ∀ q ∈ pods,
      Vendor.keyInjB (Vendor.resOpt c p) (Vendor.resOpt c q) = true) :
    ∃ rs dr,
      Vendor.GetRestartdeploymentsAndDrainPods c rec pods nodeName = .ok (rs, dr) ∧
      ∀ d : Deployment, (∃ p ∈ pods, Vendor.resOpt c p = some d) →
        ((d ∈ rs ↔ (Vendor.tallySpec c pods (Vendor.dKey d) : Int) = d.replicas) ∧
          rs.count d ≤ 1) := by
  obtain ⟨cacheF, tallyF, h1eq, hA, hB, hC⟩ :=
    pass1_spec c pods [] [] hres (fun p _ => rfl) hnd
  have hinj' : ∀ d d', inResolved c pods d → inResolved c pods d' →
      Vendor.dKey d = Vendor.dKey d' → d = d' := by
    rintro d d' ⟨p, hp, hpd⟩ ⟨q, hq, hqd⟩ hk
    exact keyInjB_spec (hinj p hp q hq) hpd hqd hk
  obtain ⟨rsF, drF, h2eq, hiff, hndF⟩ :=
    pass2_spec c rec nodeName cacheF tallyF pods hinj' pods [] [] []
      (fun q hq => hq) hA hres (by simp) (by simp) (by simp) (by simp) (by simp)
  have htally : ∀ k, Vendor.tGet tallyF k = (Vendor.tallySpec c pods k : Int) := by
    intro k
    have h := hC k
    simpa [Vendor.tGet, lookupStr] using h
  refine ⟨rsF, drF, ?_, ?_⟩
  · simp [Vendor.GetRestartdeploymentsAndDrainPods, h1eq, h2eq]
  · intro d hd
    refine ⟨⟨?_, ?_⟩, ?_⟩
    · intro hmem
      rcases (hiff d).mp hmem with h | ⟨p, _, _, hp2⟩
      · exact absurd h (List.not_mem_nil d)
      · rw [← htally (Vendor.dKey d)]
        exact hp2
    · intro ht
      obtain ⟨p, hp, hpd⟩ := hd
      exact (hiff d).mpr (Or.inr ⟨p, hp, hpd, by rw [htally]; exact ht⟩)
    · exact List.nodup_iff_count_le_one.mp (hndF.of_map Vendor.dKey) d

theorem spec_C1_witness :
    ((∀ p ∈ [podWeb], Vendor.resolvesToDep clusterWeb p = true) ∧
      (([podWeb].map Vendor.podKey).Nodup) ∧
      (∀ p ∈ [podWeb], ∀ q ∈ [podWeb],
        Vendor.keyInjB (Vendor.resOpt clusterWeb p) (Vendor.resOpt clusterWeb q) = true)) ∧
    (∃ rs dr,
      Vendor.GetRestartdeploymentsAndDrainPods clusterWeb [] [podWeb] "n1" = .ok (rs, dr) ∧
      ∀ d : Deployment, (∃ p ∈ [podWeb], Vendor.resOpt clusterWeb p = some d) →
        ((d ∈ rs ↔ (Vendor.tallySpec clusterWeb [podWeb] (Vendor.dKey d) : Int) = d.replicas) ∧
          rs.count d ≤ 1)) :=
  ⟨⟨by decide, by decide, by decide⟩,
    spec_C1 clusterWeb [] [podWeb] "n1" (by decide) (by decide) (by decide)⟩

/-- C2: one `Drain` pass (vendor) with every pod resolving, distinct pod
keys, and every restart candidate already stamped for this node (so the
restart loop performs no writes — an unstamped candidate panics instead,
see C7/C9): `Drain` returns the distinguished `NodeDrainError` iff some
listed pod is in the waiting-eviction state, and otherwise returns success
with the node's RestartRecord entries cleared. -/
theorem spec_C2 (c : Cluster) (failU : String → Bool) (rec : Vendor.Record) (node : Node)
    (pods : List Pod)
    (hres : ∀ p ∈ pods, Vendor.resolvesToDep c p = true)
    (hnd : (pods.map Vendor.podKey).Nodup)
    (hstamped : ∀ d ∈ Vendor.restartCandidates c rec pods node.name,
      lookupStr d.templateAnn restartedNodeKey = some node.name) :
    ((Vendor.Drain c failU rec node pods).out = .nodeDrainError ↔
      pods.any (fun p => p.isWaitingEviction) = true) ∧
    (pods.any (fun p => p.isWaitingEviction) = false →
      (Vendor.Drain c failU rec node pods).out = .ok ∧
      (Vendor.Drain c failU rec node pods).record = Vendor.recErase rec node.name) := by
  obtain ⟨cacheF, tallyF, h1eq, hA, hB, hC⟩ :=
    pass1_spec c pods [] [] hres (fun p _ => rfl) hnd
  obtain ⟨rsF, drF, h2eq⟩ :=
    pass2_ok rec node.name cacheF tallyF pods [] [] []
      (fun p hp => by
        obtain ⟨d, hd⟩ := resolvesToDep_true.mp (hres p hp)
        exact ⟨d, by rw [hA p hp, hd]; rfl⟩)
  have hclass : Vendor.GetRestartdeploymentsAndDrainPods c rec pods node.name =
      .ok (rsF, drF) := by
    simp [Vendor.GetRestartdeploymentsAndDrainPods, h1eq, h2eq]
  have hcand : Vendor.restartCandidates c rec pods node.name = rsF := by
    simp [Vendor.restartCandidates, hclass]
  have hstamped' : ∀ d ∈ rsF, lookupStr d.templateAnn restartedNodeKey = some node.name := by
    intro d hd
    exact hstamped d (by rw [hcand]; exact hd)
  have hrg : Vendor.RestartDeployments failU rec node.name rsF = ⟨rec, [], [], .ok⟩ := by
    have h := restartGo_skip_all failU node.name rsF rec [] [] hstamped'
    simpa [Vendor.RestartDeployments] using h
  have hdr : Vendor.Drain c failU rec node pods =
      (if pods.any (fun p => p.isWaitingEviction) then
        ⟨.nodeDrainError, rec, Vendor.Evict (drF.filter (fun p => p.isEvictable))⟩
      else
        ⟨.ok, Vendor.recErase rec node.name,
          Vendor.Evict (drF.filter (fun p => p.isEvictable))⟩) := by
    simp [Vendor.Drain, hclass, hrg]
  by_cases hw : pods.any (fun p => p.isWaitingEviction) = true
  · rw [hdr, if_pos hw]
    refine ⟨by simp [hw], ?_⟩
    intro h
    rw [h] at hw
    cases hw
  · have hw' : pods.any (fun p => p.isWaitingEviction) = false := by simpa using hw
    rw [hdr, if_neg (by simp [hw'])]
    exact ⟨by simp [hw'], fun _ => ⟨rfl, rfl⟩⟩

theorem spec_C2_witness :
    ((∀ p ∈ [podWebWaiting], Vendor.resolvesToDep clusterWebStamped p = true) ∧
      (([podWebWaiting].map Vendor.podKey).Nodup) ∧
      (∀ d ∈ Vendor.restartCandidates clusterWebStamped [] [podWebWaiting] "n1",
        lookupStr d.templateAnn restartedNodeKey = some "n1")) ∧
    (((Vendor.Drain clusterWebStamped (fun _ => false) [] (Node.mk "n1" [] [])
          [podWebWaiting]).out = .nodeDrainError ↔
        [podWebWaiting].any (fun p => p.isWaitingEviction) = true) ∧
      ([podWebWaiting].any (fun p => p.isWaitingEviction) = false →
        (Vendor.Drain clusterWebStamped (fun _ => false) [] (Node.mk "n1" [] [])
            [podWebWaiting]).out = .ok ∧
        (Vendor.Drain clusterWebStamped (fun _ => false) [] (Node.mk "n1" [] [])
            [podWebWaiting]).record = Vendor.recErase [] "n1")) :=
  ⟨⟨by decide, by decide, by decide⟩,
    spec_C2 clusterWebStamped (fun _ => false) [] (Node.mk "n1" [] []) [podWebWaiting]
      (by decide) (by decide) (by decide)⟩

end KarpenterTerminator
